import Mathlib

/-!
Verification of the notification-management dispatch engine.

Shallow embedding of the JavaScript sources:
  * `api/lib/chatwork.js` (the current variant, with value shaping):
    `formatValue`, `formatMessage`;
  * the filter evaluator module: `evaluateFilter`;
  * `api/handlers/universal.js`: `handleUniversalNotification` (rule matching,
    notification loop, task creation with assignee validation, fallback send);
  * `api/lib/errorNotify.js`: `getAdminCredentials`, `buildErrorMessage`,
    `notifyError`;
  * `api/lib/firestore.js` (multi-promotion variant) plus the resolution
    prologue of `api/webhook.js`: `getConfig`, `findPromotionBySheetName`,
    and the config-resolution steps of the webhook handler.

JavaScript strings are modelled by `String`/`List Char`; the only falsy
string value is the empty string, so an optional string field whose
absence and emptiness are treated alike by the code is modelled as a plain
`String` with the empty string standing for "unset".  Remote calls
(message send, member list, task creation, config fetch) are oracles:
total functions into `Except`, with `Except.error` standing for a thrown
error.  A thrown-and-caught error in the code becomes a `match` on the
oracle result here.
-/

set_option maxRecDepth 4000

namespace NotifMgmt

/-! ## JS string primitives (character-list level) -/

/-- Boolean test that `tok` is a leading segment of `l`
(the check `RegExp`/`indexOf`-style matching starts from). -/
def pfx : List Char → List Char → Bool
  | [], _ => true
  | _ :: _, [] => false
  | a :: as, b :: bs => a = b && pfx as bs

/-- Whether `tok` occurs anywhere in `l` (JS `indexOf(tok) !== -1`). -/
def containsTok (tok : List Char) : List Char → Bool
  | [] => pfx tok []
  | c :: cs => pfx tok (c :: cs) || containsTok tok cs

/-- JS `String.prototype.endsWith`. -/
def jsEndsWith (l tok : List Char) : Bool :=
  pfx tok.reverse l.reverse

/-- JS `str.replace(tok, repl)` with a plain-string pattern: replaces the
first occurrence only; the original string comes back when there is none. -/
def replaceFirst (tok repl : List Char) : List Char → List Char
  | [] => []
  | c :: cs =>
    if pfx tok (c :: cs) then repl ++ (c :: cs).drop tok.length
    else c :: replaceFirst tok repl cs

/-- Worker for global replacement (JS `str.replace(/tok/g, repl)` for a
literal token): scans left to right, restarting after each replacement
without rescanning the replacement text.  The replacement is spliced
literally: the `$`-patterns JS interprets in a string replacement
(`$&`, `$$`, ...) never occur in the shaped field values this engine
substitutes and are not modelled.  `fuel` bounds the recursion; every
step consumes at least one character, so `fuel = l.length` is exact. -/
def replaceAllAux (tok repl : List Char) : Nat → List Char → List Char
  | _, [] => []
  | 0, l => l
  | fuel + 1, c :: cs =>
    if pfx tok (c :: cs) then repl ++ replaceAllAux tok repl fuel ((c :: cs).drop tok.length)
    else c :: replaceAllAux tok repl fuel cs

def jsReplaceAll (s : String) (tok repl : List Char) : String :=
  String.mk (replaceAllAux tok repl s.toList.length s.toList)

/-- JS `String.prototype.trim`: strip whitespace from both ends
(restricted to the ASCII whitespace classes of `Char.isWhitespace`;
the exotic Unicode space classes JS also strips do not occur in the
configuration data this engine handles). -/
def jsTrim (s : String) : String :=
  String.mk (((s.toList.dropWhile Char.isWhitespace).reverse.dropWhile Char.isWhitespace).reverse)

/-! ## `chatwork.js`: value shaping and template rendering -/

/-- The date-only marker `" 00:00:00"`. -/
def tok00 : List Char := " 00:00:00".toList

/-- The spreadsheet time epoch marker `"1899/12/30 "`. -/
def epochTok : List Char := "1899/12/30 ".toList

/-- `formatValue` from `chatwork.js`.  Mirrors the source: values ending in
`" 00:00:00"` go through `val.replace(' 00:00:00', '')` (first occurrence);
values starting with `"1899/12/30 "` use `val.split(' ')[1]` — the segment
between the first space (pinned at index 10 by the guard) and the next
space — then `timePart.split(':')` taking elements 0 and 1, interpolating
the JS `undefined` as the text `"undefined"` when no colon is present.
Non-string inputs pass through in the source; the model only receives
strings. -/
def formatValue (val : String) : String :=
  let l := val.toList
  if jsEndsWith l tok00 then
    String.mk (replaceFirst tok00 [] l)
  else if pfx epochTok l then
    let timePart := (l.drop epochTok.length).takeWhile (fun c => c != ' ')
    if timePart.isEmpty then val
    else
      let h := timePart.takeWhile (fun c => c != ':')
      match timePart.dropWhile (fun c => c != ':') with
      | _ :: r2 => String.mk (h ++ ':' :: r2.takeWhile (fun c => c != ':'))
      | [] => String.mk h ++ ":undefined"
  else val

/-- The data object handed to `formatMessage`: its own enumerable
string-valued entries in iteration order, plus the nested `allFields`
map (`none` when `data.allFields` is `undefined`).  The `allFields`
member itself is object-valued in the source and is only observable
through the literal token `\x7ballFields\x7d`, which no configuration
uses; it is elided here. -/
structure FmtData where
  entries : List (String × String)
  allFields : Option (List (String × String))
deriving Repr, DecidableEq

/-- First-match association lookup (JS object property access for maps
with unique keys). -/
def lookupField (fields : List (String × String)) (key : String) : Option String :=
  (fields.find? (fun kv => kv.1 == key)).map (fun kv => kv.2)

/-- Replacement text for one `\x7ballFields.KEY\x7d` token:
`data.allFields?.[key]` run through `formatValue`, with `undefined`
(absent map or absent key) rendered as the empty string. -/
def afValue (af : Option (List (String × String))) (key : String) : String :=
  match af with
  | none => ""
  | some fields =>
    match lookupField fields key with
    | none => ""
    | some v => formatValue v

/-- The literal lead-in of the nested-key pattern `/\x7ballFields\.([^\x7d]+)\x7d/g`. -/
def afTok : List Char := "\x7ballFields.".toList

/-- Global scan for `\x7ballFields.KEY\x7d` tokens (the second pass of
`formatMessage`): at each position where the literal lead-in matches, the
key is the maximal nonempty run of non-`\x7d` characters, which must be
closed by `\x7d`; otherwise the scan moves one character forward. -/
def afAux (af : Option (List (String × String))) : Nat → List Char → List Char
  | _, [] => []
  | 0, l => l
  | fuel + 1, c :: cs =>
    if pfx afTok (c :: cs) then
      let after := (c :: cs).drop afTok.length
      let key := after.takeWhile (fun ch => ch != '\x7d')
      match after.dropWhile (fun ch => ch != '\x7d'), key with
      | _ :: rest, _ :: _ => (afValue af (String.mk key)).toList ++ afAux af fuel rest
      | _, _ => c :: afAux af fuel cs
    else
      c :: afAux af fuel cs

/-- `formatMessage` from `chatwork.js`: empty template short-circuits to
`""`; then one global replace of `\x7bkey\x7d` per entry of `data`, in
iteration order, substituting the shaped value (a present string value is
never `undefined`, so the `String(...)`/`''` guard of the source reduces
to the shaped value itself); then the nested `\x7ballFields.KEY\x7d`
pass.  Keys are spliced into a regex in the source; keys containing regex
metacharacters are outside this model. -/
def formatMessage (template : String) (data : FmtData) : String :=
  if template = "" then ""
  else
    let step1 := data.entries.foldl
      (fun acc kv => jsReplaceAll acc ('\x7b' :: kv.1.toList ++ ['\x7d']) (formatValue kv.2).toList)
      template
    String.mk (afAux data.allFields step1.toList.length step1.toList)

/-! ## The filter evaluator -/

/-- A task filter as stored in configuration.  `targetColumn` uses the
empty string for both the absent and the empty value (identical falsy
behavior in the source); `operator` and `targetValue` keep `Option`
because the destructuring defaults of the source apply only to the
absent (`undefined`) value, not to the empty string. -/
structure TaskFilter where
  targetColumn : String
  operator : Option String
  targetValue : Option String
deriving Repr, DecidableEq

/-- `evaluateFilter(filter, allFields = \x7b\x7d)`: vacuously true without a
filter object or with a falsy `targetColumn`; otherwise compares
`String(allFields[targetColumn] || '').trim()` against
`String(targetValue || '').trim()` under `equals` / `not_equals`
(`operator` defaulting to `equals` when absent), and returns true for
any other operator value. -/
def evaluateFilter (filter : Option TaskFilter) (allFields : List (String × String)) : Bool :=
  match filter with
  | none => true
  | some f =>
    if f.targetColumn = "" then true
    else
      let actualValue := jsTrim ((lookupField allFields f.targetColumn).getD "")
      let expectedValue := jsTrim (f.targetValue.getD "")
      let op := f.operator.getD "equals"
      if op = "equals" then actualValue == expectedValue
      else if op = "not_equals" then actualValue != expectedValue
      else true

/-! ## `handlers/universal.js`: data model -/

/-- One entry of a rule's `notifications` array.  `roomId` and `template`
use the empty string for the absent value (both sides of the falsy checks
`!notif.roomId` and `if (notif.template)`). -/
structure Notif where
  roomId : String
  template : String
  columns : List String
deriving Repr, DecidableEq

/-- A rule's optional `task` block.  A task participates only when
`enabled` and a truthy `roomId` hold. -/
structure TaskSpec where
  enabled : Bool
  roomId : String
  filter : Option TaskFilter
  assigneeIds : List String
  bodyTemplate : String
deriving Repr, DecidableEq

/-- One notification rule: a trigger `sheetName`, notifications, and an
optional task.  A `null` array entry or a rule without an `id` behaves,
for the dispatcher, exactly like a rule whose `sheetName` is falsy: both
are removed by the same guard `r && r.sheetName`; the empty `sheetName`
represents all of them. -/
structure Rule where
  id : String
  sheetName : String
  notifications : List Notif
  task : Option TaskSpec
deriving Repr, DecidableEq

/-- The slice of the tenant configuration the universal handler reads. -/
structure Config where
  chatworkToken : String
  notificationRules : List Rule
deriving Repr, DecidableEq

/-- The normalized inbound event as read by the universal handler:
`data.sheetName`, `data.rowIndex` and the raw field map `data.allFields`
(absent for malformed payloads). -/
structure EventData where
  sheetName : String
  rowIndex : Option Nat
  allFields : Option (List (String × String))
deriving Repr, DecidableEq

/-- Outcome entry of the per-channel notifications list:
`\x7broomId, status: 'sent', id\x7d` or `\x7broomId, status: 'failed', error\x7d`. -/
structure NotifOutcome where
  roomId : String
  status : String
  messageId : Option String
  error : Option String
deriving Repr, DecidableEq

/-- Outcome entry of the tasks list: `created` (with `taskIds`),
`failed` (with `error`) or `skipped` (with `reason`). -/
structure TaskOutcome where
  roomId : String
  status : String
  reason : Option String
  taskIds : Option (List Nat)
  error : Option String
deriving Repr, DecidableEq

/-- Observable external effects of one dispatch, in order: message sends,
error reports (calls to `notifyError`), room-member fetches, task
creations, and the best-effort fallback send of the task failure path. -/
inductive Action where
  | notifSend (roomId message : String)
  | reportError (caseName : String)
  | memberFetch (roomId : String)
  | taskCreate (roomId body : String) (assigneeIds : List String)
  | fallbackSend (roomId message : String)
deriving Repr, DecidableEq

/-- Oracles for the three chat-platform calls the dispatcher makes.
`Except.error` models a thrown error.  Member account ids arrive as
numbers and are stringified by the handler. -/
structure DispatchEnv where
  send : String → String → Except String String
  members : String → Except String (List Nat)
  createTask : String → String → List String → Except String (List Nat)

/-- Dispatch state: the accumulated outcome lists plus the effect trace. -/
structure St where
  notifications : List NotifOutcome
  tasks : List TaskOutcome
  trace : List Action
deriving Repr, DecidableEq

/-! ## `handlers/universal.js`: the dispatcher -/

/-- JS object spread `\x7b...base, ...extra\x7d` for string-valued maps with
unique keys: first-insertion order with later values winning. -/
def spreadMerge (base extra : List (String × String)) : List (String × String) :=
  base.map (fun kv => (kv.1, (lookupField extra kv.1).getD kv.2)) ++
    extra.filter (fun kv => (lookupField base kv.1).isNone)

/-- The `formatData` object `\x7b...data, ...data.allFields, allFields\x7d`.
Of the spread event only the string-valued `sheetName` member is
representable here; `rowIndex` is numeric and the convenience extraction
fields are absent for universal events, so none of them contributes a
template key in this model. -/
def mkFormatData (data : EventData) : FmtData :=
  { entries := spreadMerge [("sheetName", data.sheetName)] (data.allFields.getD [])
  , allFields := data.allFields }

/-- The appended details block body: one `col：value` line per whitelisted
column present in `allFields`. -/
def buildDetails (allFields : List (String × String)) (columns : List String) : String :=
  columns.foldl
    (fun d col =>
      match lookupField allFields col with
      | some v => d ++ col ++ "：" ++ formatValue v ++ "\n"
      | none => d)
    ""

/-- The message built for one notification: the rendered template (when
present) plus, when a column whitelist and `data.allFields` exist and
produce a nonempty details string, a `[info]` block, separated from a
nonempty template part by a newline. -/
def buildNotifMessage (fd : FmtData) (data : EventData) (n : Notif) : String :=
  let message := if n.template ≠ "" then formatMessage n.template fd else ""
  match data.allFields with
  | some af =>
    if n.columns ≠ [] then
      let details := buildDetails af n.columns
      if details ≠ "" then
        (if message ≠ "" then message ++ "\n" else message) ++
          "[info][title]詳細情報[/title]" ++ details ++ "[/info]"
      else message
    else message
  | none => message

/-- One iteration of the notification loop: skip silently without a
`roomId` or with an empty built message; otherwise send, recording a
`sent` outcome, or — when the send throws — report the error and record
a `failed` outcome, never propagating. -/
def processNotif (env : DispatchEnv) (fd : FmtData) (data : EventData) (ruleSheet : String)
    (st : St) (n : Notif) : St :=
  if n.roomId = "" then st
  else
    let message := buildNotifMessage fd data n
    if message = "" then st
    else
      match env.send n.roomId message with
      | Except.ok mid =>
        { st with
            notifications := st.notifications ++
              [{ roomId := n.roomId, status := "sent", messageId := some mid, error := none }]
            trace := st.trace ++ [Action.notifSend n.roomId message] }
      | Except.error e =>
        { st with
            notifications := st.notifications ++
              [{ roomId := n.roomId, status := "failed", messageId := none, error := some e }]
            trace := st.trace ++
              [Action.notifSend n.roomId message,
               Action.reportError ("Universal Notification: " ++ ruleSheet)] }

/-- The task body: the rendered `bodyTemplate` when present, else the
default row-added notice naming the sheet. -/
def buildTaskBody (fd : FmtData) (data : EventData) (t : TaskSpec) : String :=
  if t.bodyTemplate ≠ "" then formatMessage t.bodyTemplate fd
  else "【タスク】" ++ data.sheetName ++ "に行が追加されました"

/-- How the body of the task try-block ends, given an enabled task with a
truthy room.  Constructors carry exactly what the outcome and effect
trace of that ending need: the error message of a throw, and for the
creation attempts the rendered body and the validated assignee list. -/
inductive TaskStep where
  | skippedFilter
  | noAssignees
  | memberFetchThrew (e : String)
  | noValidAssignees (targetIds : List String)
  | createOk (body : String) (finalAssignees : List String) (ids : List Nat)
  | createThrew (body : String) (finalAssignees : List String) (e : String)
deriving Repr, DecidableEq

/-- The decision flow of the task try-block, in source order: a configured
filter evaluating false skips; an empty configured assignee list throws;
the member list is fetched (a throw propagates to the catch); the trimmed
configured ids are intersected with the stringified member account ids;
an empty intersection throws; otherwise the task creation is attempted
with the rendered body and a same-day 23:59:59 due time (the due time is
fixed and not part of any observable modelled here). -/
def taskStep (env : DispatchEnv) (fd : FmtData) (data : EventData) (t : TaskSpec) : TaskStep :=
  if t.filter.isSome ∧ evaluateFilter t.filter (data.allFields.getD []) = false then
    TaskStep.skippedFilter
  else if t.assigneeIds.isEmpty then
    TaskStep.noAssignees
  else
    match env.members t.roomId with
    | Except.error e => TaskStep.memberFetchThrew e
    | Except.ok mem =>
      let validIds := mem.map (fun a => toString a)
      let targetIds := t.assigneeIds.map (fun id => jsTrim id)
      let finalAssignees := targetIds.filter (fun id => validIds.contains id)
      if finalAssignees.isEmpty then TaskStep.noValidAssignees targetIds
      else
        let body := buildTaskBody fd data t
        match env.createTask t.roomId body finalAssignees with
        | Except.ok ids => TaskStep.createOk body finalAssignees ids
        | Except.error e => TaskStep.createThrew body finalAssignees e

/-- The catch block of the task step: report the error, record a `failed`
outcome, and attempt one best-effort fallback plain-text warning to the
same room; the fallback send result is discarded (`catch (e) \x7b\x7d`).
`preTrace` holds the external calls the try-block made before throwing. -/
def taskFailed (data : EventData) (ruleSheet : String) (t : TaskSpec) (errMsg : String)
    (preTrace : List Action) (st : St) : St :=
  { st with
      tasks := st.tasks ++
        [{ roomId := t.roomId, status := "failed", reason := none, taskIds := none,
           error := some errMsg }]
      trace := st.trace ++ preTrace ++
        [Action.reportError ("Universal Notification Task: " ++ ruleSheet),
         Action.fallbackSend t.roomId
           ("⚠️ Task Creation Failed: " ++ errMsg ++ "\n\n対象シート: " ++ data.sheetName)] }

/-- The task step of one rule: runs only for an enabled task with a truthy
room; the try-block decision of `taskStep` then determines the recorded
outcome and the performed external calls. -/
def processTask (env : DispatchEnv) (fd : FmtData) (data : EventData) (ruleSheet : String)
    (st : St) (task : Option TaskSpec) : St :=
  match task with
  | none => st
  | some t =>
    if t.enabled ∧ t.roomId ≠ "" then
      match taskStep env fd data t with
      | TaskStep.skippedFilter =>
        { st with
            tasks := st.tasks ++
              [{ roomId := t.roomId, status := "skipped", reason := some "filter_mismatch",
                 taskIds := none, error := none }] }
      | TaskStep.noAssignees =>
        taskFailed data ruleSheet t "No assignee IDs configured for task" [] st
      | TaskStep.memberFetchThrew e =>
        taskFailed data ruleSheet t e [Action.memberFetch t.roomId] st
      | TaskStep.noValidAssignees targetIds =>
        taskFailed data ruleSheet t
          ("No valid assignees found in room " ++ t.roomId ++ ". Input: " ++
            String.intercalate "," targetIds)
          [Action.memberFetch t.roomId] st
      | TaskStep.createOk body finalAssignees ids =>
        { st with
            tasks := st.tasks ++
              [{ roomId := t.roomId, status := "created", reason := none,
                 taskIds := some ids, error := none }]
            trace := st.trace ++
              [Action.memberFetch t.roomId, Action.taskCreate t.roomId body finalAssignees] }
      | TaskStep.createThrew body finalAssignees e =>
        taskFailed data ruleSheet t e
          [Action.memberFetch t.roomId, Action.taskCreate t.roomId body finalAssignees] st
    else st

/-- Processing of one matched rule: the notification loop in array order,
then the task step. -/
def processRule (env : DispatchEnv) (fd : FmtData) (data : EventData) (st : St) (rule : Rule) : St :=
  processTask env fd data rule.sheetName
    (rule.notifications.foldl (processNotif env fd data rule.sheetName) st)
    rule.task

/-- The sanitized rule list: `(config.notificationRules || []).filter(r => r && r.sheetName)`. -/
def validRules (cfg : Config) : List Rule :=
  cfg.notificationRules.filter (fun r => r.sheetName != "")

/-- The matched rules: exact string equality against the event sheet name. -/
def matchedRules (cfg : Config) (sheet : String) : List Rule :=
  (validRules cfg).filter (fun r => r.sheetName == sheet)

/-- Result of the universal handler: either the zero-match diagnostic
message or the accumulated per-channel outcomes. -/
inductive HandlerResult where
  | noMatch (message : String)
  | dispatched (st : St)
deriving Repr, DecidableEq

/-- The diagnostic message returned when no rule matches, listing every
sheet name the event was compared against. -/
def noMatchMessage (cfg : Config) (sheet : String) : String :=
  "No rules matched. Requested: \x27" ++ sheet ++ "\x27, Available: [" ++
    String.intercalate ", " ((validRules cfg).map Rule.sheetName) ++ "]"

/-- `handleUniversalNotification(data, config)` over the oracles. -/
def handleUniversalNotification (cfg : Config) (data : EventData) (env : DispatchEnv) :
    HandlerResult :=
  let matched := matchedRules cfg data.sheetName
  if matched.isEmpty then
    HandlerResult.noMatch (noMatchMessage cfg data.sheetName)
  else
    let fd := mkFormatData data
    HandlerResult.dispatched (matched.foldl (processRule env fd data) ⟨[], [], []⟩)

/-! ## `lib/errorNotify.js`: the error reporter -/

/-- The two admin-credential fields of the tenant config as read by
`getAdminCredentials`; the empty string stands for unset (falsy). -/
structure AdminCfg where
  adminChatworkToken : String
  adminChatworkRoomId : String
deriving Repr, DecidableEq

/-- Environment of the error reporter: the config fetch (which may throw),
the chat send keyed by token, room and message, the two environment
variables, and the current JST timestamp string. -/
structure AdminEnv where
  getCfg : Except String AdminCfg
  send : String → String → String → Except String String
  envAdminToken : String
  envAdminRoomId : String
  timestamp : String

/-- Observable effects of `notifyError`: the local console log of the
unreportable case, or the one admin-room send attempt. -/
inductive AdminAction where
  | logLocal
  | adminSend (token roomId : String)
deriving Repr, DecidableEq

/-- `getAdminCredentials`: tenant-config values win when both are truthy;
a config-fetch throw is swallowed; otherwise the environment variables,
again only when both are truthy; else no credentials. -/
def getAdminCredentials (env : AdminEnv) : Option (String × String) :=
  let fromConfig : Option (String × String) :=
    match env.getCfg with
    | Except.ok cfg =>
      if cfg.adminChatworkToken ≠ "" ∧ cfg.adminChatworkRoomId ≠ "" then
        some (cfg.adminChatworkToken, cfg.adminChatworkRoomId)
      else none
    | Except.error _ => none
  match fromConfig with
  | some c => some c
  | none =>
    if env.envAdminToken ≠ "" ∧ env.envAdminRoomId ≠ "" then
      some (env.envAdminToken, env.envAdminRoomId)
    else none

/-- The payload handed to `notifyError`: a string or an object, of which
only the key list is observable in the summary. -/
inductive ErrorPayload where
  | strPayload (s : String)
  | objPayload (keys : List String)
deriving Repr, DecidableEq

/-- Parameters of one `notifyError` call. -/
structure ErrorParams where
  caseName : String
  errorCategory : String
  errorMessage : String
  rowNumber : Option Nat
  payload : Option ErrorPayload
deriving Repr, DecidableEq

/-- The truncated payload summary: first 100 characters of a string
payload, first 5 keys of an object payload. -/
def payloadSummary : Option ErrorPayload → String
  | none => ""
  | some (ErrorPayload.strPayload s) => String.mk (s.toList.take 100)
  | some (ErrorPayload.objPayload keys) =>
    "Keys: " ++ String.intercalate ", " (keys.take 5) ++
      (if keys.length > 5 then "..." else "")

/-- `buildErrorMessage`: the fixed `[info]` block.  `rowNumber` is falsy
(omitted) when absent or zero; the summary line is omitted when empty. -/
def buildErrorMessage (timestamp : String) (p : ErrorParams) (summary : String) : String :=
  "[info][title]⚠️ System Automation Error[/title]\n" ++
  "【Timestamp】: " ++ timestamp ++ "\n" ++
  "【Case】: " ++ (if p.caseName ≠ "" then p.caseName else "Unknown") ++ "\n" ++
  "【Error Type】: " ++ (if p.errorCategory ≠ "" then p.errorCategory else "Unknown Error") ++ "\n" ++
  "【Detail】: " ++ (if p.errorMessage ≠ "" then p.errorMessage else "No details available") ++ "\n" ++
  (match p.rowNumber with
   | some r => if r ≠ 0 then "【Source Row】: " ++ toString r ++ "\n" else ""
   | none => "") ++
  (if summary ≠ "" then "【Payload Reference】: " ++ summary ++ "\n" else "") ++
  "[/info]"

/-- `notifyError`: the whole body sits in one try/catch, so the call never
throws.  Without credentials it logs locally and returns false; with
credentials it attempts exactly one admin send and returns whether that
send succeeded, the catch turning a send throw into `false` with no
second report. -/
def notifyError (env : AdminEnv) (p : ErrorParams) : Bool × List AdminAction :=
  match getAdminCredentials env with
  | none => (false, [AdminAction.logLocal])
  | some (token, roomId) =>
    let message := buildErrorMessage env.timestamp p (payloadSummary p.payload)
    match env.send token roomId message with
    | Except.ok _ => (true, [AdminAction.adminSend token roomId])
    | Except.error _ => (false, [AdminAction.adminSend token roomId])

/-! ## `lib/firestore.js` (multi-promotion variant) and the webhook
resolution prologue -/

/-- The process-wide environment defaults read by `getConfig`; the empty
string stands for an unset variable. -/
structure EnvVars where
  spreadsheetId : String
  staffListSheet : String
  bookingListSheet : String
  staffChatSheet : String
  adminChatworkToken : String
  consultationRoomId : String
  consultationTemplate : String
  adminRoomId : String
deriving Repr, DecidableEq

/-- A raw tenant config document as parsed from the store, before the
environment merge.  `none` is an absent key (the document emptiness check
`Object.keys(config).length === 0` distinguishes absent from
present-but-empty).  Fields the resolution path never reads
(`bookingColumnMapping`, reminder and viewer blocks, ...) are elided. -/
structure RawConfig where
  spreadsheetId : Option String
  staffListSheet : Option String
  bookingListSheet : Option String
  staffChatSheet : Option String
  chatworkToken : Option String
  roomId : Option String
  consultationTemplate : Option String
  adminChatworkToken : Option String
  adminChatworkRoomId : Option String
  notificationRules : Option (List Rule)
deriving Repr, DecidableEq

/-- The empty document `\x7b\x7d`. -/
def emptyRaw : RawConfig :=
  ⟨none, none, none, none, none, none, none, none, none, none⟩

/-- The merged configuration returned by `getConfig` (`_promotionId` plus
the layered fields). -/
structure ResolvedConfig where
  promotionId : Option String
  spreadsheetId : String
  staffListSheet : String
  bookingListSheet : String
  staffChatSheet : String
  chatworkToken : String
  roomId : String
  consultationTemplate : String
  adminChatworkToken : String
  adminChatworkRoomId : String
  notificationRules : Option (List Rule)
deriving Repr, DecidableEq

/-- JS `a || b` on strings: the empty string is the only falsy value. -/
def jsOrS (a b : String) : String :=
  if a = "" then b else a

/-- One entry of the `listPromotions` result.  `updatedAt` is the
`updatedAt || createdAt || null` timestamp reduced to a numeric sort key
(ISO timestamp strings order like their dates). -/
structure PromoListing where
  id : String
  name : String
  updatedAt : Nat
deriving Repr, DecidableEq

/-- Oracles for the configuration store: fetching one promotion document,
fetching the legacy `notification_config/main` document, and listing the
promotions.  `Except.error` is a thrown fetch error; `Except.ok none` is
a non-ok HTTP response.  Promotion documents arrive already reduced to
`promoData.config || promoData`. -/
structure FsEnv where
  env : EnvVars
  fetchPromotion : String → Except String (Option RawConfig)
  fetchLegacy : Except String (Option RawConfig)
  listPromos : Except String (List PromoListing)

/-- The environment-variable merge at the tail of `getConfig`:
`config.X || process.env.X || hardcoded default` per field. -/
def mergeWithEnv (env : EnvVars) (pid : Option String) (cfg : RawConfig) : ResolvedConfig :=
  { promotionId := pid
  , spreadsheetId := jsOrS (cfg.spreadsheetId.getD "") env.spreadsheetId
  , staffListSheet := jsOrS (cfg.staffListSheet.getD "") (jsOrS env.staffListSheet "スタッフリスト")
  , bookingListSheet := jsOrS (cfg.bookingListSheet.getD "") (jsOrS env.bookingListSheet "個別相談予約一覧")
  , staffChatSheet := jsOrS (cfg.staffChatSheet.getD "") (jsOrS env.staffChatSheet "担当者チャット")
  , chatworkToken := jsOrS (cfg.chatworkToken.getD "") env.adminChatworkToken
  , roomId := jsOrS (cfg.roomId.getD "") env.consultationRoomId
  , consultationTemplate := jsOrS (cfg.consultationTemplate.getD "") env.consultationTemplate
  , adminChatworkToken := jsOrS (cfg.adminChatworkToken.getD "") env.adminChatworkToken
  , adminChatworkRoomId := jsOrS (cfg.adminChatworkRoomId.getD "") env.adminRoomId
  , notificationRules := cfg.notificationRules }

/-- `getConfig(promotionId = null)`: try the promotion document when an id
is given (a throw or a non-ok response leaves the raw config empty);
fall back to the legacy document when the raw config is still the empty
object — the source checks `Object.keys(config).length === 0`, rendered
here as equality with `emptyRaw` over the modelled fields (a document
holding only keys outside this model would count as nonempty in the
program) — setting the resolved id to `main` exactly when the legacy
response is ok; finally merge with the environment defaults.  Never
throws: every fetch sits in a try/catch. -/
def getConfig (fs : FsEnv) (promotionId : Option String) : ResolvedConfig :=
  let cfg0 : RawConfig :=
    match promotionId with
    | some pid =>
      match fs.fetchPromotion pid with
      | Except.ok (some doc) => doc
      | _ => emptyRaw
    | none => emptyRaw
  if cfg0 = emptyRaw then
    match fs.fetchLegacy with
    | Except.ok (some doc) => mergeWithEnv fs.env (some "main") doc
    | _ => mergeWithEnv fs.env promotionId emptyRaw
  else
    mergeWithEnv fs.env promotionId cfg0

/-- One entry of the match list built by `findPromotionBySheetName`. -/
structure PromoMatch where
  promotionId : String
  config : ResolvedConfig
  matchType : String
  ruleId : Option String
  updatedAt : Nat
deriving Repr, DecidableEq

/-- Stable descending insertion by `updatedAt`, modelling the
`dateB - dateA` sort of the match list: JS `Array.prototype.sort` is
stable, so on equal timestamps the earlier-listed match stays first —
here the strict `<` keeps the inserted (earlier-listed) element ahead of
every equal-key element of the already-sorted tail. -/
def insertByUpdatedDesc (x : PromoMatch) : List PromoMatch → List PromoMatch
  | [] => [x]
  | y :: ys => if x.updatedAt < y.updatedAt then y :: insertByUpdatedDesc x ys else x :: y :: ys

def sortByUpdatedDesc : List PromoMatch → List PromoMatch
  | [] => []
  | x :: xs => insertByUpdatedDesc x (sortByUpdatedDesc xs)

/-- The per-promotion match: the booking-list sheet signals a
consultation match, which a notification-rule match overrides to
`universal` (the source assigns `matchType` twice in that order). -/
def promoMatchOf (fs : FsEnv) (sheetName : String) (promo : PromoListing) : Option PromoMatch :=
  let config := getConfig fs (some promo.id)
  let ruleMatch : Option Rule :=
    match config.notificationRules with
    | some rules => rules.find? (fun r => r.sheetName == sheetName)
    | none => none
  match ruleMatch with
  | some r =>
    some { promotionId := promo.id, config := config, matchType := "universal"
         , ruleId := some r.id, updatedAt := promo.updatedAt }
  | none =>
    if config.bookingListSheet == sheetName then
      some { promotionId := promo.id, config := config, matchType := "consultation"
           , ruleId := none, updatedAt := promo.updatedAt }
    else none

/-- `findPromotionBySheetName(sheetName)`: scan every promotion (a failed
listing yields the empty list), keep the matches, and return the most
recently updated one; with no promotion match, check the legacy config,
first its booking-list sheet, then its notification rules; else `null`. -/
def findPromotionBySheetName (fs : FsEnv) (sheetName : String) : Option PromoMatch :=
  let promotions :=
    match fs.listPromos with
    | Except.ok l => l
    | Except.error _ => []
  let matchList := promotions.filterMap (promoMatchOf fs sheetName)
  match matchList with
  | _ :: _ =>
    match sortByUpdatedDesc matchList with
    | m :: _ => some m
    | [] => none
  | [] =>
    let legacyConfig := getConfig fs none
    if legacyConfig.bookingListSheet == sheetName then
      some { promotionId := "main", config := legacyConfig, matchType := "consultation"
           , ruleId := none, updatedAt := 0 }
    else
      match legacyConfig.notificationRules with
      | some rules =>
        match rules.find? (fun r => r.sheetName == sheetName) with
        | some r =>
          some { promotionId := "main", config := legacyConfig, matchType := "universal"
               , ruleId := some r.id, updatedAt := 0 }
        | none => none
      | none => none

/-- The configuration-resolution prologue of the webhook handler
(`api/webhook.js`, the block from `let resolvedConfig` to the legacy
fallback): injected config first, then a direct fetch for an explicit
tenant id, then the sheet-name scan, and finally the legacy/default
config whenever nothing resolved.  Returns the config together with the
resolved promotion id. -/
def resolveConfig (fs : FsEnv) (injectedConfig : Option ResolvedConfig)
    (promotionId : Option String) (targetSheetName : Option String) :
    ResolvedConfig × Option String :=
  let initial : Option (ResolvedConfig × Option String) :=
    match injectedConfig with
    | some c => some (c, promotionId)
    | none =>
      match promotionId with
      | some pid => some (getConfig fs (some pid), some pid)
      | none =>
        match targetSheetName with
        | some sheet =>
          match findPromotionBySheetName fs sheet with
          | some m => some (m.config, some m.promotionId)
          | none => none
        | none => none
  match initial with
  | some r => r
  | none =>
    let c := getConfig fs none
    (c, c.promotionId)

/-! ## Helper lemmas: string scanning -/

theorem pfx_refl (l : List Char) : pfx l l = true := by
  induction l with
  | nil => rfl
  | cons a as ih => simp [pfx, ih]

theorem pfx_append (a b : List Char) : pfx a (a ++ b) = true := by
  induction a with
  | nil => rfl
  | cons x xs ih => simp [pfx, ih]

theorem pfx_eq_of_take_eq (tok : List Char) :
    ∀ l m : List Char, l.take tok.length = m.take tok.length → pfx tok l = pfx tok m := by
  induction tok with
  | nil => intro l m _; rfl
  | cons a as ih =>
    intro l m h
    cases l with
    | nil =>
      cases m with
      | nil => rfl
      | cons y ys => simp [List.take] at h
    | cons x xs =>
      cases m with
      | nil => simp [List.take] at h
      | cons y ys =>
        simp only [List.length_cons, List.take_succ_cons, List.cons.injEq] at h
        simp [pfx, h.1, ih xs ys h.2]

theorem mk_toList (s : String) : String.mk s.toList = s := rfl

theorem replaceAllAux_id_of_not_contains (tok repl : List Char) :
    ∀ (fuel : Nat) (l : List Char), containsTok tok l = false →
      replaceAllAux tok repl fuel l = l := by
  intro fuel
  induction fuel with
  | zero => intro l _; cases l <;> rfl
  | succ n ih =>
    intro l h
    cases l with
    | nil => rfl
    | cons c cs =>
      simp only [containsTok, Bool.or_eq_false_iff] at h
      simp [replaceAllAux, h.1, ih cs h.2]

theorem afAux_id_of_not_contains (af : Option (List (String × String))) :
    ∀ (fuel : Nat) (l : List Char), containsTok afTok l = false →
      afAux af fuel l = l := by
  intro fuel
  induction fuel with
  | zero => intro l _; cases l <;> rfl
  | succ n ih =>
    intro l h
    cases l with
    | nil => rfl
    | cons c cs =>
      simp only [containsTok, Bool.or_eq_false_iff] at h
      simp [afAux, h.1, ih cs h.2]

theorem replaceFirst_unique (tok repl : List Char) (htok : tok ≠ []) :
    ∀ p : List Char, containsTok tok (p ++ tok.dropLast) = false →
      replaceFirst tok repl (p ++ tok) = p ++ repl := by
  intro p
  induction p with
  | nil =>
    intro _
    cases tok with
    | nil => exact absurd rfl htok
    | cons t ts =>
      simp only [List.nil_append, replaceFirst, pfx_refl, if_true]
      simp [List.drop_length]
  | cons c p' ih =>
    intro h
    simp only [List.cons_append, containsTok, Bool.or_eq_false_iff] at h
    have hpfx : pfx tok (c :: (p' ++ tok)) = false := by
      have htake : (c :: (p' ++ tok)).take tok.length =
          (c :: (p' ++ tok.dropLast)).take tok.length := by
        cases tok with
        | nil => exact absurd rfl htok
        | cons t ts =>
          simp only [List.length_cons, List.take_succ_cons, List.cons.injEq, true_and]
          rw [List.take_append_eq_append_take, List.take_append_eq_append_take]
          congr 1
          rw [List.dropLast_eq_take]
          rw [List.take_take]
          congr 1
          simp only [List.length_cons]
          omega
      rw [pfx_eq_of_take_eq tok _ _ htake]
      exact h.1
    simp only [List.cons_append, replaceFirst]
    rw [if_neg (by simp [hpfx])]
    exact congrArg (fun x => c :: x) (ih h.2)

theorem takeWhile_append_of_all (p : Char → Bool) :
    ∀ (l₁ l₂ : List Char), (∀ a ∈ l₁, p a = true) →
      (l₁ ++ l₂).takeWhile p = l₁ ++ l₂.takeWhile p := by
  intro l₁
  induction l₁ with
  | nil => intro l₂ _; rfl
  | cons a as ih =>
    intro l₂ h
    have ha : p a = true := h a (List.mem_cons_self a as)
    simp only [List.cons_append, List.takeWhile_cons, ha, if_true]
    rw [ih l₂ (fun x hx => h x (List.mem_cons_of_mem a hx))]

theorem dropWhile_append_of_all (p : Char → Bool) :
    ∀ (l₁ l₂ : List Char), (∀ a ∈ l₁, p a = true) →
      (l₁ ++ l₂).dropWhile p = l₂.dropWhile p := by
  intro l₁
  induction l₁ with
  | nil => intro l₂ _; rfl
  | cons a as ih =>
    intro l₂ h
    have ha : p a = true := h a (List.mem_cons_self a as)
    simp only [List.cons_append, List.dropWhile_cons, ha, if_true]
    exact ih l₂ (fun x hx => h x (List.mem_cons_of_mem a hx))

/-! ## Helper lemmas: the dispatcher only appends to its state -/

/-- The outcome/trace contribution of one notification, independent of the
incoming state. -/
def notifDelta (env : DispatchEnv) (fd : FmtData) (data : EventData) (ruleSheet : String)
    (n : Notif) : St :=
  processNotif env fd data ruleSheet ⟨[], [], []⟩ n

/-- The outcome/trace contribution of one task step. -/
def taskDelta (env : DispatchEnv) (fd : FmtData) (data : EventData) (ruleSheet : String)
    (task : Option TaskSpec) : St :=
  processTask env fd data ruleSheet ⟨[], [], []⟩ task

def notifsOutcomes (env : DispatchEnv) (fd : FmtData) (data : EventData) (ruleSheet : String)
    (ns : List Notif) : List NotifOutcome :=
  (ns.map (fun n => (notifDelta env fd data ruleSheet n).notifications)).flatten

def notifsTrace (env : DispatchEnv) (fd : FmtData) (data : EventData) (ruleSheet : String)
    (ns : List Notif) : List Action :=
  (ns.map (fun n => (notifDelta env fd data ruleSheet n).trace)).flatten

theorem processNotif_split (env : DispatchEnv) (fd : FmtData) (data : EventData)
    (rs : String) (st : St) (n : Notif) :
    processNotif env fd data rs st n =
      { notifications := st.notifications ++ (notifDelta env fd data rs n).notifications
      , tasks := st.tasks
      , trace := st.trace ++ (notifDelta env fd data rs n).trace } := by
  unfold notifDelta processNotif
  by_cases h1 : n.roomId = ""
  · simp [h1]
  · by_cases h2 : buildNotifMessage fd data n = ""
    · simp [h1, h2]
    · cases hs : env.send n.roomId (buildNotifMessage fd data n) <;> simp [h1, h2, hs]

theorem foldl_processNotif (env : DispatchEnv) (fd : FmtData) (data : EventData) (rs : String) :
    ∀ (ns : List Notif) (st : St),
      ns.foldl (processNotif env fd data rs) st =
        { notifications := st.notifications ++ notifsOutcomes env fd data rs ns
        , tasks := st.tasks
        , trace := st.trace ++ notifsTrace env fd data rs ns } := by
  intro ns
  induction ns with
  | nil => intro st; simp [notifsOutcomes, notifsTrace]
  | cons n rest ih =>
    intro st
    simp only [List.foldl_cons]
    rw [ih, processNotif_split]
    simp [notifsOutcomes, notifsTrace, List.append_assoc]

theorem processTask_split (env : DispatchEnv) (fd : FmtData) (data : EventData)
    (rs : String) (st : St) (task : Option TaskSpec) :
    processTask env fd data rs st task =
      { notifications := st.notifications
      , tasks := st.tasks ++ (taskDelta env fd data rs task).tasks
      , trace := st.trace ++ (taskDelta env fd data rs task).trace } := by
  unfold taskDelta processTask taskFailed
  cases task with
  | none => simp
  | some t =>
    by_cases h1 : t.enabled ∧ t.roomId ≠ ""
    · cases hstep : taskStep env fd data t <;> simp [h1, hstep]
    · simp [h1]

theorem processRule_split (env : DispatchEnv) (fd : FmtData) (data : EventData)
    (st : St) (rule : Rule) :
    processRule env fd data st rule =
      { notifications := st.notifications ++
          notifsOutcomes env fd data rule.sheetName rule.notifications
      , tasks := st.tasks ++ (taskDelta env fd data rule.sheetName rule.task).tasks
      , trace := st.trace ++ notifsTrace env fd data rule.sheetName rule.notifications
          ++ (taskDelta env fd data rule.sheetName rule.task).trace } := by
  unfold processRule
  rw [foldl_processNotif, processTask_split]

/-- Number of fallback-send attempts in a trace. -/
def countFallbacks (tr : List Action) : Nat :=
  (tr.filter (fun a => match a with | Action.fallbackSend _ _ => true | _ => false)).length

theorem countFallbacks_append (a b : List Action) :
    countFallbacks (a ++ b) = countFallbacks a + countFallbacks b := by
  simp [countFallbacks]

/-! ## Helper lemmas: outcome lists of the notification loop -/

theorem notifsOutcomes_append (env : DispatchEnv) (fd : FmtData) (data : EventData)
    (rs : String) (a b : List Notif) :
    notifsOutcomes env fd data rs (a ++ b) =
      notifsOutcomes env fd data rs a ++ notifsOutcomes env fd data rs b := by
  simp [notifsOutcomes]

theorem notifsOutcomes_cons (env : DispatchEnv) (fd : FmtData) (data : EventData)
    (rs : String) (n : Notif) (b : List Notif) :
    notifsOutcomes env fd data rs (n :: b) =
      (notifDelta env fd data rs n).notifications ++ notifsOutcomes env fd data rs b := by
  simp [notifsOutcomes]

theorem notifsTrace_append (env : DispatchEnv) (fd : FmtData) (data : EventData)
    (rs : String) (a b : List Notif) :
    notifsTrace env fd data rs (a ++ b) =
      notifsTrace env fd data rs a ++ notifsTrace env fd data rs b := by
  simp [notifsTrace]

theorem notifsTrace_cons (env : DispatchEnv) (fd : FmtData) (data : EventData)
    (rs : String) (n : Notif) (b : List Notif) :
    notifsTrace env fd data rs (n :: b) =
      (notifDelta env fd data rs n).trace ++ notifsTrace env fd data rs b := by
  simp [notifsTrace]

/-- Every outcome one notification contributes is `sent` or `failed`. -/
theorem notifDelta_status (env : DispatchEnv) (fd : FmtData) (data : EventData)
    (rs : String) (n : Notif) :
    ∀ o ∈ (notifDelta env fd data rs n).notifications,
      o.status = "sent" ∨ o.status = "failed" := by
  intro o ho
  unfold notifDelta processNotif at ho
  by_cases h1 : n.roomId = ""
  · simp [h1] at ho
  · by_cases h2 : buildNotifMessage fd data n = ""
    · simp [h1, h2] at ho
    · cases hs : env.send n.roomId (buildNotifMessage fd data n) <;>
        simp [h1, h2, hs] at ho <;> simp [ho]

/-- The task step never touches the notifications outcome list. -/
theorem taskDelta_no_notifications (env : DispatchEnv) (fd : FmtData) (data : EventData)
    (rs : String) (task : Option TaskSpec) :
    (taskDelta env fd data rs task).notifications = [] := by
  unfold taskDelta processTask taskFailed
  cases task with
  | none => rfl
  | some t =>
    by_cases h1 : t.enabled ∧ t.roomId ≠ ""
    · cases hstep : taskStep env fd data t <;> simp [h1, hstep]
    · simp [h1]

/-- A notification with a truthy room and a nonempty built message always
leaves its send attempt in the trace, whether or not the send succeeds. -/
theorem send_mem_notifDelta_trace (env : DispatchEnv) (fd : FmtData) (data : EventData)
    (rs : String) (n : Notif)
    (hroom : n.roomId ≠ "") (hmsg : buildNotifMessage fd data n ≠ "") :
    Action.notifSend n.roomId (buildNotifMessage fd data n) ∈
      (notifDelta env fd data rs n).trace := by
  unfold notifDelta processNotif
  cases hs : env.send n.roomId (buildNotifMessage fd data n) <;> simp [hroom, hmsg, hs]

/-- Status invariant for the whole rule fold. -/
theorem foldl_rules_status (env : DispatchEnv) (fd : FmtData) (data : EventData) :
    ∀ (rules : List Rule) (st : St),
      (∀ o ∈ st.notifications, o.status = "sent" ∨ o.status = "failed") →
      ∀ o ∈ (rules.foldl (processRule env fd data) st).notifications,
        o.status = "sent" ∨ o.status = "failed" := by
  intro rules
  induction rules with
  | nil => intro st h; exact h
  | cons r rest ih =>
    intro st h
    simp only [List.foldl_cons]
    refine ih _ ?_
    intro o ho
    rw [processRule_split] at ho
    dsimp only at ho
    simp only [List.mem_append] at ho
    rcases ho with ho | ho
    · exact h o ho
    · unfold notifsOutcomes at ho
      simp only [List.mem_flatten, List.mem_map] at ho
      obtain ⟨l, ⟨n, _, rfl⟩, hol⟩ := ho
      exact notifDelta_status env fd data r.sheetName n o hol

/-! ## Claim C10 -/

/-- Claim C10 (implicit): a configured notification with an absent or
empty `roomId`, or whose built message renders empty, is skipped with no
outcome entry at all; consequently every entry of the per-channel
notifications outcome list of a dispatch has status `sent` or `failed` —
a `skipped` notification outcome is never recorded. -/
theorem notif_skip_records_nothing
    (env : DispatchEnv) (fd : FmtData) (data : EventData) (sheet : String)
    (st : St) (n : Notif) (cfg : Config) :
    ((n.roomId = "" ∨ buildNotifMessage fd data n = "") →
      processNotif env fd data sheet st n = st)
    ∧ (∀ res, handleUniversalNotification cfg data env = HandlerResult.dispatched res →
        ∀ o ∈ res.notifications, o.status = "sent" ∨ o.status = "failed") := by
  constructor
  · intro h
    rcases h with h | h
    · simp [processNotif, h]
    · by_cases h1 : n.roomId = ""
      · simp [processNotif, h1]
      · simp [processNotif, h1, h]
  · intro res hres o ho
    unfold handleUniversalNotification at hres
    by_cases hm : (matchedRules cfg data.sheetName).isEmpty
    · simp [hm] at hres
    · rw [if_neg hm] at hres
      injection hres with hres
      rw [← hres] at ho
      exact foldl_rules_status env (mkFormatData data) data _ ⟨[], [], []⟩
        (by intro o' ho'; simp at ho') o ho

/-- Witness for C10: a notification whose `roomId` is empty leaves the
dispatch state untouched. -/
theorem notif_skip_records_nothing_witness :
    processNotif ⟨fun _ _ => Except.ok "m", fun _ => Except.ok [], fun _ _ _ => Except.ok []⟩
        (mkFormatData ⟨"S", none, none⟩) ⟨"S", none, none⟩ "S" ⟨[], [], []⟩ ⟨"", "T", []⟩ =
      ⟨[], [], []⟩ :=
  (notif_skip_records_nothing
    ⟨fun _ _ => Except.ok "m", fun _ => Except.ok [], fun _ _ _ => Except.ok []⟩
    (mkFormatData ⟨"S", none, none⟩) ⟨"S", none, none⟩ "S" ⟨[], [], []⟩
    ⟨"", "T", []⟩ ⟨"", []⟩).1 (Or.inl rfl)

/-! ## Claim C5 -/

/-- The raw legacy document as the fetch produced it: the parsed document
on an ok response, the empty object on a non-ok response or a throw. -/
def legacyRawOf (fs : FsEnv) : RawConfig :=
  match fs.fetchLegacy with
  | Except.ok (some doc) => doc
  | _ => emptyRaw

/-- Claim C5: tenant resolution never raises and always returns a usable
configuration.  With an unmatched sheet name (or no hint at all) it falls
back to the legacy config — whose fields are the legacy document layered
over the environment defaults over hard-coded defaults — and with an
explicit tenant id it resolves that tenant directly.  Even when every
store call throws, the result is the pure environment-default
configuration. -/
theorem tenant_resolution_total (fs : FsEnv) (sheet : String) (pid : String) :
    (findPromotionBySheetName fs sheet = none →
      resolveConfig fs none none (some sheet) =
        (getConfig fs none, (getConfig fs none).promotionId))
    ∧ resolveConfig fs none none none =
        (getConfig fs none, (getConfig fs none).promotionId)
    ∧ resolveConfig fs none (some pid) none = (getConfig fs (some pid), some pid)
    ∧ (getConfig fs none).bookingListSheet =
        jsOrS ((legacyRawOf fs).bookingListSheet.getD "")
          (jsOrS fs.env.bookingListSheet "個別相談予約一覧")
    ∧ (getConfig fs none).staffListSheet =
        jsOrS ((legacyRawOf fs).staffListSheet.getD "")
          (jsOrS fs.env.staffListSheet "スタッフリスト")
    ∧ (∀ e, fs.fetchLegacy = Except.error e →
        getConfig fs none = mergeWithEnv fs.env none emptyRaw) := by
  refine ⟨?_, ?_, ?_, ?_, ?_, ?_⟩
  · intro h
    simp [resolveConfig, h]
  · simp [resolveConfig]
  · simp [resolveConfig]
  · unfold getConfig legacyRawOf
    cases hf : fs.fetchLegacy with
    | ok o => cases o <;> simp [hf, mergeWithEnv]
    | error e => simp [hf, mergeWithEnv]
  · unfold getConfig legacyRawOf
    cases hf : fs.fetchLegacy with
    | ok o => cases o <;> simp [hf, mergeWithEnv]
    | error e => simp [hf, mergeWithEnv]
  · intro e he
    simp [getConfig, he]

/-- Witness environment for C5: every store call throws and every
environment variable is unset. -/
def c5Env : FsEnv :=
  ⟨⟨"", "", "", "", "", "", "", ""⟩, fun _ => Except.error "down",
    Except.error "down", Except.error "down"⟩

/-- Witness for C5: with the whole store down and a sheet name matching no
tenant, resolution still returns the environment-default configuration
instead of failing. -/
theorem tenant_resolution_total_witness :
    resolveConfig c5Env none none (some "Z") =
      (mergeWithEnv c5Env.env none emptyRaw, none) := by
  exact ((tenant_resolution_total c5Env "Z" "p").1 (by decide)).trans (by rfl)

/-! ## Claim C1 -/

theorem toList_mk (l : List Char) : (String.mk l).toList = l := rfl

/-- The entry pass of `formatMessage` leaves a template unchanged when no
entry key token occurs in it. -/
theorem foldl_replace_id (entries : List (String × String)) (template : String)
    (h : ∀ kv ∈ entries,
      containsTok ('\x7b' :: kv.1.toList ++ ['\x7d']) template.toList = false) :
    entries.foldl
        (fun acc kv =>
          jsReplaceAll acc ('\x7b' :: kv.1.toList ++ ['\x7d']) (formatValue kv.2).toList)
        template = template := by
  induction entries with
  | nil => rfl
  | cons kv rest ih =>
    simp only [List.foldl_cons]
    have hid : jsReplaceAll template ('\x7b' :: kv.1.toList ++ ['\x7d'])
        (formatValue kv.2).toList = template := by
      unfold jsReplaceAll
      rw [replaceAllAux_id_of_not_contains _ _ _ _ (h kv (List.mem_cons_self _ _))]
      exact mk_toList template
    rw [hid]
    exact ih (fun kv' hkv' => h kv' (List.mem_cons_of_mem _ hkv'))

/-- Counterexample to claim C1 as stated: the renderer only substitutes
tokens whose key is present in the data; with the empty data map the
template `Hi \x7bname\x7d` renders to itself — the literal token text —
not to `Hi `. -/
theorem formatMessage_missing_key_counterexample :
    formatMessage "Hi \x7bname\x7d" ⟨[], none⟩ = "Hi \x7bname\x7d"
    ∧ formatMessage "Hi \x7bname\x7d" ⟨[], none⟩ ≠ "Hi " := by
  decide

/-- Claim C1 (amended): a `\x7bkey\x7d` token whose key is absent from the
data map is left as the literal token text — in particular a (nonempty)
template none of whose data-key tokens and no `\x7ballFields.\x7d` token
occurs in renders to itself, so `Hi \x7bname\x7d` with the empty data map
yields `Hi \x7bname\x7d`; a key present in the data renders its value
(never the text `undefined`), as in `Hi \x7bname\x7d` with
`name = Taro` yielding `Hi Taro`; and only the nested
`\x7ballFields.KEY\x7d` form renders a missing key as the empty string. -/
theorem formatMessage_missing_keys (template : String) (data : FmtData)
    (hkeys : ∀ kv ∈ data.entries,
      containsTok ('\x7b' :: kv.1.toList ++ ['\x7d']) template.toList = false)
    (haf : containsTok afTok template.toList = false) :
    (formatMessage template data = if template = "" then "" else template)
    ∧ formatMessage "Hi \x7bname\x7d" ⟨[("name", "Taro")], none⟩ = "Hi Taro"
    ∧ formatMessage "Hi \x7ballFields.X\x7d" ⟨[], none⟩ = "Hi " := by
  refine ⟨?_, by decide, by decide⟩
  by_cases ht : template = ""
  · simp [formatMessage, ht]
  · rw [if_neg ht]
    unfold formatMessage
    rw [if_neg ht]
    dsimp only
    rw [foldl_replace_id data.entries template hkeys,
      afAux_id_of_not_contains data.allFields _ _ haf]
    exact mk_toList template

/-- Witness for C1 (amended): a token for a key absent from a nonempty
data map survives rendering verbatim. -/
theorem formatMessage_missing_keys_witness :
    formatMessage "Hello \x7bmissing\x7d" ⟨[("name", "Taro")], none⟩ =
      "Hello \x7bmissing\x7d" := by
  exact ((formatMessage_missing_keys "Hello \x7bmissing\x7d" ⟨[("name", "Taro")], none⟩
    (by decide) (by decide)).1).trans (by rfl)

/-! ## Claim C6 -/

/-- Counterexample to claim C6 as stated: the date rule removes the first
occurrence of ` 00:00:00`, not the suffix, and it takes precedence over
the time rule.  `A 00:00:00B 00:00:00` ends with the suffix but shaping
yields `AB 00:00:00` instead of the suffix-stripped `A 00:00:00B`; and
the midnight time value `1899/12/30 00:00:00` starts with the time
prefix yet yields `1899/12/30`, not its `HH:MM` part `00:00`. -/
theorem formatValue_counterexample :
    formatValue "A 00:00:00B 00:00:00" = "AB 00:00:00"
    ∧ ("AB 00:00:00" : String) ≠ "A 00:00:00B"
    ∧ formatValue "1899/12/30 00:00:00" = "1899/12/30"
    ∧ formatValue "1899/12/30 00:00:00" ≠ "00:00" := by
  decide

theorem takeWhile_cons_true {p : Char → Bool} {a : Char} (l : List Char) (h : p a = true) :
    (a :: l).takeWhile p = a :: l.takeWhile p := by
  simp [List.takeWhile_cons, h]

theorem takeWhile_cons_false {p : Char → Bool} {a : Char} (l : List Char) (h : p a = false) :
    (a :: l).takeWhile p = [] := by
  simp [List.takeWhile_cons, h]

theorem dropWhile_cons_false {p : Char → Bool} {a : Char} (l : List Char) (h : p a = false) :
    (a :: l).dropWhile p = a :: l := by
  simp [List.dropWhile_cons, h]

theorem takeWhile_eq_self_of_all (p : Char → Bool) (l : List Char)
    (h : ∀ a ∈ l, p a = true) : l.takeWhile p = l := by
  have := takeWhile_append_of_all p l [] h
  simpa using this

theorem dropWhile_eq_nil_of_all (p : Char → Bool) (l : List Char)
    (h : ∀ a ∈ l, p a = true) : l.dropWhile p = [] := by
  have := dropWhile_append_of_all p l [] h
  simpa using this

/-- Claim C6 (amended): value shaping removes the first occurrence of
` 00:00:00` from a value ending with that suffix — which strips the
suffix whenever it is the only occurrence — and this date rule takes
precedence over the time rule.  Otherwise a value starting with
`1899/12/30 ` is reduced from its first space-delimited token after the
prefix: a token containing a colon yields its first two colon-segments
joined by `:` (so `H:M` for `H:M:S` times), a nonempty colonless token
`T` yields the JS artifact `T:undefined`, and an empty token leaves the
value unchanged.  A value matching neither the suffix nor the prefix
passes through unchanged.  The conjuncts cover all inputs: every
epoch-prefixed value falls in exactly one of the three token shapes. -/
theorem formatValue_shaping (p h m rest t rest2 rest3 : List Char) (s : String) :
    (containsTok tok00 (p ++ tok00.dropLast) = false →
      formatValue (String.mk (p ++ tok00)) = String.mk p)
    ∧ ((∀ c ∈ h, c ≠ ':' ∧ c ≠ ' ') → (∀ c ∈ m, c ≠ ':' ∧ c ≠ ' ') →
        (rest = [] ∨ (∃ r, rest = ':' :: r) ∨ (∃ r, rest = ' ' :: r)) →
        jsEndsWith (epochTok ++ (h ++ (':' :: (m ++ rest)))) tok00 = false →
        formatValue (String.mk (epochTok ++ (h ++ (':' :: (m ++ rest))))) =
          String.mk (h ++ (':' :: m)))
    ∧ (t ≠ [] → (∀ c ∈ t, c ≠ ':' ∧ c ≠ ' ') →
        (rest2 = [] ∨ (∃ r, rest2 = ' ' :: r)) →
        jsEndsWith (epochTok ++ (t ++ rest2)) tok00 = false →
        formatValue (String.mk (epochTok ++ (t ++ rest2))) = String.mk t ++ ":undefined")
    ∧ ((rest3 = [] ∨ (∃ r, rest3 = ' ' :: r)) →
        jsEndsWith (epochTok ++ rest3) tok00 = false →
        formatValue (String.mk (epochTok ++ rest3)) = String.mk (epochTok ++ rest3))
    ∧ (jsEndsWith s.toList tok00 = false → pfx epochTok s.toList = false →
        formatValue s = s) := by
  refine ⟨?_, ?_, ?_, ?_, ?_⟩
  · intro hc
    have hend : jsEndsWith (p ++ tok00) tok00 = true := by
      unfold jsEndsWith
      rw [List.reverse_append]
      exact pfx_append _ _
    unfold formatValue
    dsimp only
    rw [toList_mk, if_pos hend, replaceFirst_unique tok00 [] (by decide) p hc]
    simp
  · intro hhok hmok hrest hend
    have hpfx : pfx epochTok (epochTok ++ (h ++ (':' :: (m ++ rest)))) = true :=
      pfx_append _ _
    have hhs : ∀ c ∈ h, ((fun c => c != ' ') c) = true := by
      intro c hc; simpa using (hhok c hc).2
    have hms : ∀ c ∈ m, ((fun c => c != ' ') c) = true := by
      intro c hc; simpa using (hmok c hc).2
    have hhc : ∀ c ∈ h, ((fun c => c != ':') c) = true := by
      intro c hc; simpa using (hhok c hc).1
    have hmc : ∀ c ∈ m, ((fun c => c != ':') c) = true := by
      intro c hc; simpa using (hmok c hc).1
    have htp : (h ++ (':' :: (m ++ rest))).takeWhile (fun c => c != ' ') =
        h ++ (':' :: (m ++ rest.takeWhile (fun c => c != ' '))) := by
      rw [takeWhile_append_of_all _ h _ hhs, takeWhile_cons_true _ (by decide),
        takeWhile_append_of_all _ m _ hms]
    have hm2 : (m ++ rest.takeWhile (fun c => c != ' ')).takeWhile
        (fun c => c != ':') = m := by
      rcases hrest with rfl | ⟨r, rfl⟩ | ⟨r, rfl⟩
      · simp [takeWhile_eq_self_of_all _ m hmc]
      · rw [takeWhile_cons_true _ (by decide), takeWhile_append_of_all _ m _ hmc,
          takeWhile_cons_false _ (by decide)]
        simp
      · rw [takeWhile_cons_false _ (by decide)]
        simp [takeWhile_eq_self_of_all _ m hmc]
    have hhead : (h ++ (':' :: (m ++ rest.takeWhile (fun c => c != ' ')))).takeWhile
        (fun c => c != ':') = h := by
      rw [takeWhile_append_of_all _ h _ hhc, takeWhile_cons_false _ (by decide)]
      simp
    have hdrop : (h ++ (':' :: (m ++ rest.takeWhile (fun c => c != ' ')))).dropWhile
        (fun c => c != ':') =
          ':' :: (m ++ rest.takeWhile (fun c => c != ' ')) := by
      rw [dropWhile_append_of_all _ h _ hhc, dropWhile_cons_false _ (by decide)]
    unfold formatValue
    dsimp only
    rw [toList_mk, if_neg (by simp only [Bool.not_eq_true]; exact hend), if_pos hpfx,
      List.drop_left, htp, if_neg (by simp), hdrop]
    dsimp only
    rw [hhead, hm2]
  · intro ht htok hrest2 hend
    have hpfx : pfx epochTok (epochTok ++ (t ++ rest2)) = true := pfx_append _ _
    have hts : ∀ c ∈ t, ((fun c => c != ' ') c) = true := by
      intro c hc; simpa using (htok c hc).2
    have htc : ∀ c ∈ t, ((fun c => c != ':') c) = true := by
      intro c hc; simpa using (htok c hc).1
    have htp : (t ++ rest2).takeWhile (fun c => c != ' ') = t := by
      rw [takeWhile_append_of_all _ t _ hts]
      rcases hrest2 with rfl | ⟨r, rfl⟩
      · simp
      · rw [takeWhile_cons_false _ (by decide)]
        simp
    have hdropt : t.dropWhile (fun c => c != ':') = [] := dropWhile_eq_nil_of_all _ t htc
    have hheadt : t.takeWhile (fun c => c != ':') = t := takeWhile_eq_self_of_all _ t htc
    unfold formatValue
    dsimp only
    rw [toList_mk, if_neg (by simp only [Bool.not_eq_true]; exact hend), if_pos hpfx,
      List.drop_left, htp, if_neg (by simp [List.isEmpty_iff, ht]), hdropt]
    dsimp only
    rw [hheadt]
  · intro hrest3 hend
    have hpfx : pfx epochTok (epochTok ++ rest3) = true := pfx_append _ _
    have htp : rest3.takeWhile (fun c => c != ' ') = [] := by
      rcases hrest3 with rfl | ⟨r, rfl⟩
      · rfl
      · exact takeWhile_cons_false _ (by decide)
    unfold formatValue
    dsimp only
    rw [toList_mk, if_neg (by simp only [Bool.not_eq_true]; exact hend), if_pos hpfx,
      List.drop_left, htp]
    rfl
  · intro h1 h2
    unfold formatValue
    dsimp only
    rw [if_neg (by simp only [Bool.not_eq_true]; exact h1),
      if_neg (by simp only [Bool.not_eq_true]; exact h2)]

/-- Witness for C6 (amended): the suffix of the specification example
`2026/01/31 00:00:00` is stripped, `1899/12/30 10:05:00` reduces to
`10:05`, a colonless epoch token yields the `undefined` artifact, an
empty epoch token leaves the value unchanged, and an unrelated value
passes through. -/
theorem formatValue_shaping_witness :
    formatValue "2026/01/31 00:00:00" = "2026/01/31"
    ∧ formatValue "1899/12/30 10:05:00" = "10:05"
    ∧ formatValue "1899/12/30 10" = "10:undefined"
    ∧ formatValue "1899/12/30 " = "1899/12/30 "
    ∧ formatValue "hello" = "hello" := by
  refine ⟨?_, ?_, ?_, ?_, ?_⟩
  · exact ((formatValue_shaping "2026/01/31".toList [] [] [] [] [] [] "x").1
      (by decide)).trans rfl
  · exact ((formatValue_shaping [] "10".toList "05".toList (':' :: "00".toList) [] [] []
      "x").2.1 (by decide) (by decide) (Or.inr (Or.inl ⟨"00".toList, rfl⟩))
      (by decide)).trans rfl
  · exact ((formatValue_shaping [] [] [] [] "10".toList [] [] "x").2.2.1
      (by decide) (by decide) (Or.inl rfl) (by decide)).trans rfl
  · exact ((formatValue_shaping [] [] [] [] [] [] [] "x").2.2.2.1
      (Or.inl rfl) (by decide)).trans rfl
  · exact (formatValue_shaping [] [] [] [] [] [] [] "hello").2.2.2.2
      (by decide) (by decide)

/-! ## Claim C4 -/

/-- Counterexample to claim C4 as stated: the matcher does not select
every rule whose `sheetName` equals the event sheet name.  A rule whose
`sheetName` is empty (or a null rule entry, removed by the same
`r && r.sheetName` guard) is discarded before matching, so for the empty
event sheet name the selected set is empty even though plain string
equality holds. -/
theorem rule_matcher_counterexample :
    (Rule.mk "r1" "" [] none).sheetName = ""
    ∧ matchedRules ⟨"tok", [Rule.mk "r1" "" [] none]⟩ "" = []
    ∧ [Rule.mk "r1" "" [] none].filter (fun r => r.sheetName == "") =
        [Rule.mk "r1" "" [] none] := by
  decide

/-- Claim C4 (amended): after discarding rules with an absent or empty
`sheetName`, the matcher selects exactly the rules whose `sheetName`
equals the event sheet name by plain string equality (so no prefix or
substring matching), every matched rule is processed by the dispatch
fold, and a zero-match dispatch returns the diagnostic message listing
every configured sheet name the event was compared against. -/
theorem rule_matcher_exact (cfg : Config) (sheet : String) (data : EventData)
    (env : DispatchEnv) :
    matchedRules cfg sheet =
      cfg.notificationRules.filter (fun r => r.sheetName != "" && r.sheetName == sheet)
    ∧ (∀ r ∈ matchedRules cfg sheet, r.sheetName = sheet)
    ∧ (matchedRules cfg data.sheetName = [] →
        handleUniversalNotification cfg data env =
          HandlerResult.noMatch (noMatchMessage cfg data.sheetName))
    ∧ (matchedRules cfg data.sheetName ≠ [] →
        handleUniversalNotification cfg data env =
          HandlerResult.dispatched ((matchedRules cfg data.sheetName).foldl
            (processRule env (mkFormatData data) data) ⟨[], [], []⟩)) := by
  refine ⟨?_, ?_, ?_, ?_⟩
  · simp [matchedRules, validRules, List.filter_filter, Bool.and_comm]
  · intro r hr
    simp only [matchedRules, validRules, List.mem_filter] at hr
    exact eq_of_beq hr.2
  · intro h
    simp [handleUniversalNotification, h]
  · intro h
    have hne : ¬(matchedRules cfg data.sheetName).isEmpty = true := by
      simpa [List.isEmpty_iff] using h
    simp [handleUniversalNotification, hne]

/-- Witness for C4: one configured rule for sheet `A`; an event for sheet
`B` matches nothing and the returned diagnostic lists `A`. -/
theorem rule_matcher_exact_witness :
    handleUniversalNotification ⟨"tok", [⟨"r1", "A", [], none⟩]⟩ ⟨"B", none, none⟩
        ⟨fun _ _ => Except.ok "m", fun _ => Except.ok [], fun _ _ _ => Except.ok []⟩ =
      HandlerResult.noMatch "No rules matched. Requested: \x27B\x27, Available: [A]" := by
  exact ((rule_matcher_exact ⟨"tok", [⟨"r1", "A", [], none⟩]⟩ "B" ⟨"B", none, none⟩
    ⟨fun _ _ => Except.ok "m", fun _ => Except.ok [], fun _ _ _ => Except.ok []⟩).2.2.1
    (by decide)).trans (by rfl)

/-! ## Claim C2 -/

/-- Claim C2: within one matched rule placed anywhere in the dispatch
(arbitrary incoming state), when the send of one notification throws, the
dispatcher records a `failed` outcome for exactly that notification,
reports the error, still attempts every later sibling notification (their
send attempts appear in the trace and their outcomes follow in the
outcome list), and still processes the rule task step — one notification
failure never blocks sibling notifications or the task. -/
theorem notification_failure_isolated
    (env : DispatchEnv) (fd : FmtData) (data : EventData) (st : St)
    (rid sheet : String) (pre post : List Notif) (n : Notif) (task : Option TaskSpec)
    (e : String)
    (hroom : n.roomId ≠ "")
    (hmsg : buildNotifMessage fd data n ≠ "")
    (hfail : env.send n.roomId (buildNotifMessage fd data n) = Except.error e) :
    (processRule env fd data st ⟨rid, sheet, pre ++ n :: post, task⟩).notifications =
      st.notifications ++ notifsOutcomes env fd data sheet pre ++
        [{ roomId := n.roomId, status := "failed", messageId := none, error := some e }] ++
        notifsOutcomes env fd data sheet post
    ∧ Action.reportError ("Universal Notification: " ++ sheet) ∈
        (processRule env fd data st ⟨rid, sheet, pre ++ n :: post, task⟩).trace
    ∧ (∀ n' ∈ post, n'.roomId ≠ "" → buildNotifMessage fd data n' ≠ "" →
        Action.notifSend n'.roomId (buildNotifMessage fd data n') ∈
          (processRule env fd data st ⟨rid, sheet, pre ++ n :: post, task⟩).trace)
    ∧ (processRule env fd data st ⟨rid, sheet, pre ++ n :: post, task⟩).tasks =
        st.tasks ++ (taskDelta env fd data sheet task).tasks := by
  have hdelta : notifDelta env fd data sheet n =
      ⟨[{ roomId := n.roomId, status := "failed", messageId := none, error := some e }], [],
        [Action.notifSend n.roomId (buildNotifMessage fd data n),
         Action.reportError ("Universal Notification: " ++ sheet)]⟩ := by
    simp [notifDelta, processNotif, hroom, hmsg, hfail]
  have hsplit := processRule_split env fd data st ⟨rid, sheet, pre ++ n :: post, task⟩
  refine ⟨?_, ?_, ?_, ?_⟩
  · rw [hsplit]
    dsimp only
    rw [notifsOutcomes_append, notifsOutcomes_cons, hdelta]
    simp [List.append_assoc]
  · rw [hsplit]
    dsimp only
    rw [notifsTrace_append, notifsTrace_cons, hdelta]
    simp
  · intro n' hn' hroom' hmsg'
    have hsend := send_mem_notifDelta_trace env fd data sheet n' hroom' hmsg'
    rw [hsplit]
    dsimp only
    rw [notifsTrace_append, notifsTrace_cons]
    have : Action.notifSend n'.roomId (buildNotifMessage fd data n') ∈
        notifsTrace env fd data sheet post := by
      unfold notifsTrace
      simp only [List.mem_flatten, List.mem_map]
      exact ⟨(notifDelta env fd data sheet n').trace, ⟨n', hn', rfl⟩, hsend⟩
    simp [this]
  · rw [hsplit]

/-- Witness environment for C2: the send to room `1` throws, every other
call succeeds. -/
def c2Env : DispatchEnv :=
  ⟨fun room _ => if room = "1" then Except.error "boom" else Except.ok "mid",
   fun _ => Except.ok [], fun _ _ _ => Except.ok []⟩

def c2Data : EventData := ⟨"S", none, none⟩

/-- Witness for C2: a rule with two notifications whose first send throws
still yields a recorded outcome for each — `failed` for the first,
`sent` for the second. -/
theorem notification_failure_isolated_witness :
    (processRule c2Env (mkFormatData c2Data) c2Data ⟨[], [], []⟩
        ⟨"r", "S", [⟨"1", "T1", []⟩, ⟨"2", "T2", []⟩], none⟩).notifications =
      [{ roomId := "1", status := "failed", messageId := none, error := some "boom" },
       { roomId := "2", status := "sent", messageId := some "mid", error := none }] := by
  exact ((notification_failure_isolated c2Env (mkFormatData c2Data) c2Data ⟨[], [], []⟩
    "r" "S" [] [⟨"2", "T2", []⟩] ⟨"1", "T1", []⟩ none "boom"
    (by decide) (by decide) rfl).1).trans (by rfl)

/-! ## Claim C3 -/

/-- Claim C3: for an enabled task with a target room whose filter gate
passes, the validated assignee set is exactly the string-trimmed
configured ids intersected with the stringified member account ids of the
room, and it is what any task-creation attempt is issued with; when the
configured list is empty, or the intersection is empty, the task is
recorded `failed` and exactly one fallback warning send is attempted; and
the whole task step is insensitive to the message-send oracle — in
particular a failing fallback send is swallowed, never escalated. -/
theorem task_assignee_validation
    (env : DispatchEnv) (fd : FmtData) (data : EventData) (sheet : String)
    (t : TaskSpec) (st : St)
    (hen : t.enabled = true) (hroom : t.roomId ≠ "")
    (hfilter : t.filter = none ∨
      evaluateFilter t.filter (data.allFields.getD []) = true) :
    (∀ mem, env.members t.roomId = Except.ok mem → t.assigneeIds ≠ [] →
      (((t.assigneeIds.map (fun id => jsTrim id)).filter
          (fun id => (mem.map (fun a => toString a)).contains id)) ≠ [] →
        Action.taskCreate t.roomId (buildTaskBody fd data t)
            ((t.assigneeIds.map (fun id => jsTrim id)).filter
              (fun id => (mem.map (fun a => toString a)).contains id)) ∈
          (processTask env fd data sheet st (some t)).trace)
      ∧ (((t.assigneeIds.map (fun id => jsTrim id)).filter
          (fun id => (mem.map (fun a => toString a)).contains id)) = [] →
        (processTask env fd data sheet st (some t)).tasks =
          st.tasks ++
            [{ roomId := t.roomId, status := "failed", reason := none, taskIds := none,
               error := some ("No valid assignees found in room " ++ t.roomId ++
                 ". Input: " ++
                 String.intercalate "," (t.assigneeIds.map (fun id => jsTrim id))) }]
        ∧ countFallbacks (processTask env fd data sheet st (some t)).trace =
            countFallbacks st.trace + 1))
    ∧ (t.assigneeIds = [] →
        (processTask env fd data sheet st (some t)).tasks =
          st.tasks ++
            [{ roomId := t.roomId, status := "failed", reason := none, taskIds := none,
               error := some "No assignee IDs configured for task" }]
        ∧ countFallbacks (processTask env fd data sheet st (some t)).trace =
            countFallbacks st.trace + 1)
    ∧ (∀ env2 : DispatchEnv, env2.members = env.members → env2.createTask = env.createTask →
        processTask env2 fd data sheet st (some t) =
          processTask env fd data sheet st (some t)) := by
  have hfnot : ¬(t.filter.isSome = true ∧
      evaluateFilter t.filter (data.allFields.getD []) = false) := by
    rcases hfilter with hf | hf
    · simp [hf]
    · simp [hf]
  refine ⟨?_, ?_, ?_⟩
  · intro mem hmem hids
    have hne : ¬t.assigneeIds.isEmpty = true := by
      simpa [List.isEmpty_iff] using hids
    constructor
    · intro hfa
      have hfane : ¬((t.assigneeIds.map (fun id => jsTrim id)).filter
          (fun id => (mem.map (fun a => toString a)).contains id)).isEmpty = true := by
        simpa [List.isEmpty_iff] using hfa
      cases hc : env.createTask t.roomId (buildTaskBody fd data t)
          ((t.assigneeIds.map (fun id => jsTrim id)).filter
            (fun id => (mem.map (fun a => toString a)).contains id)) with
      | ok ids =>
        have hstep : taskStep env fd data t =
            TaskStep.createOk (buildTaskBody fd data t)
              ((t.assigneeIds.map (fun id => jsTrim id)).filter
                (fun id => (mem.map (fun a => toString a)).contains id)) ids := by
          unfold taskStep
          rw [if_neg hfnot, if_neg hne, hmem]
          dsimp only
          rw [if_neg hfane, hc]
        simp [processTask, hstep, hen, hroom]
      | error e =>
        have hstep : taskStep env fd data t =
            TaskStep.createThrew (buildTaskBody fd data t)
              ((t.assigneeIds.map (fun id => jsTrim id)).filter
                (fun id => (mem.map (fun a => toString a)).contains id)) e := by
          unfold taskStep
          rw [if_neg hfnot, if_neg hne, hmem]
          dsimp only
          rw [if_neg hfane, hc]
        simp [processTask, taskFailed, hstep, hen, hroom]
    · intro hfa
      have hfaempty : ((t.assigneeIds.map (fun id => jsTrim id)).filter
          (fun id => (mem.map (fun a => toString a)).contains id)).isEmpty = true := by
        simpa [List.isEmpty_iff] using hfa
      have hstep : taskStep env fd data t =
          TaskStep.noValidAssignees (t.assigneeIds.map (fun id => jsTrim id)) := by
        unfold taskStep
        rw [if_neg hfnot, if_neg hne, hmem]
        dsimp only
        rw [if_pos hfaempty]
      constructor
      · simp [processTask, taskFailed, hstep, hen, hroom]
      · simp [processTask, taskFailed, hstep, hen, hroom, countFallbacks]
  · intro hids
    have hidsempty : t.assigneeIds.isEmpty = true := by
      simpa [List.isEmpty_iff] using hids
    have hstep : taskStep env fd data t = TaskStep.noAssignees := by
      unfold taskStep
      rw [if_neg hfnot, if_pos hidsempty]
    constructor
    · simp [processTask, taskFailed, hstep, hen, hroom]
    · simp [processTask, taskFailed, hstep, hen, hroom, countFallbacks]
  · intro env2 h1 h2
    simp only [processTask, taskStep, h1, h2]

/-- Witness for C3, at the example of the specification: configured
assignee ids `["111", "222"]` with a room whose only member is account
`111` finalize to `["111"]`; and a room with no valid member records a
`failed` outcome with exactly one fallback attempt, even though the
fallback send itself throws. -/
theorem task_assignee_validation_witness :
    Action.taskCreate "9" (buildTaskBody (mkFormatData c2Data) c2Data
        ⟨true, "9", none, ["111", "222"], ""⟩) ["111"] ∈
      (processTask ⟨fun _ _ => Except.error "down", fun _ => Except.ok [111],
          fun _ _ _ => Except.ok [5]⟩
        (mkFormatData c2Data) c2Data "S" ⟨[], [], []⟩
        (some ⟨true, "9", none, ["111", "222"], ""⟩)).trace
    ∧ countFallbacks (processTask ⟨fun _ _ => Except.error "down", fun _ => Except.ok [],
          fun _ _ _ => Except.ok [5]⟩
        (mkFormatData c2Data) c2Data "S" ⟨[], [], []⟩
        (some ⟨true, "9", none, ["111", "222"], ""⟩)).trace = 1 := by
  constructor
  · exact ((task_assignee_validation
      ⟨fun _ _ => Except.error "down", fun _ => Except.ok [111], fun _ _ _ => Except.ok [5]⟩
      (mkFormatData c2Data) c2Data "S" ⟨true, "9", none, ["111", "222"], ""⟩ ⟨[], [], []⟩
      rfl (by decide) (Or.inl rfl)).1 [111] rfl (by decide)).1 (by decide)
  · exact (((task_assignee_validation
      ⟨fun _ _ => Except.error "down", fun _ => Except.ok [], fun _ _ _ => Except.ok [5]⟩
      (mkFormatData c2Data) c2Data "S" ⟨true, "9", none, ["111", "222"], ""⟩ ⟨[], [], []⟩
      rfl (by decide) (Or.inl rfl)).1 [] rfl (by decide)).2 (by decide)).2

/-! ## Claim C7 -/

/-- Claim C7: for every enabled task with a target room and a configured
filter, if the filter evaluates to false against the event fields, the
dispatcher records the outcome `status = skipped, reason = filter_mismatch`
for that task and nothing else changes — the returned state has an
unchanged trace, so no task creation, no message send and no error report
happen for that task. -/
theorem task_filter_mismatch_skipped
    (env : DispatchEnv) (fd : FmtData) (data : EventData) (sheet : String)
    (t : TaskSpec) (st : St) (f : TaskFilter)
    (hen : t.enabled = true) (hroom : t.roomId ≠ "")
    (hf : t.filter = some f)
    (hev : evaluateFilter t.filter (data.allFields.getD []) = false) :
    processTask env fd data sheet st (some t) =
      { st with
          tasks := st.tasks ++
            [{ roomId := t.roomId, status := "skipped", reason := some "filter_mismatch",
               taskIds := none, error := none }] } := by
  have hs : taskStep env fd data t = TaskStep.skippedFilter := by
    unfold taskStep
    rw [if_pos ⟨by simp [hf], hev⟩]
  simp only [processTask, hs]
  rw [if_pos ⟨hen, hroom⟩]

/-- Witness for C7, at the example of the specification: filter
`状態 equals 完了` against fields `状態 = 未完了`. -/
theorem task_filter_mismatch_skipped_witness :
    processTask ⟨fun _ _ => Except.ok "m", fun _ => Except.ok [], fun _ _ _ => Except.ok []⟩
        (mkFormatData ⟨"S", none, some [("状態", "未完了")]⟩)
        ⟨"S", none, some [("状態", "未完了")]⟩ "S" ⟨[], [], []⟩
        (some ⟨true, "99", some ⟨"状態", some "equals", some "完了"⟩, ["1"], ""⟩) =
      ⟨[], [⟨"99", "skipped", some "filter_mismatch", none, none⟩], []⟩ := by
  rw [task_filter_mismatch_skipped _ _ _ _ _ _ ⟨"状態", some "equals", some "完了"⟩
    rfl (by decide) rfl (by decide)]
  rfl

/-! ## Claim C8 -/

/-- Claim C8: the filter evaluator is the no-op `true` when the target
column is absent or empty (in particular for the empty filter object, on
every field map), otherwise it compares the string-trimmed field value
(absent fields reading as the empty string) with the string-trimmed
target value under `equals` / `not_equals`, and every other operator
value yields `true` — a permissive fallback, not an error. -/
theorem evaluateFilter_spec (f : TaskFilter) (fields : List (String × String)) :
    (evaluateFilter none fields = true)
    ∧ (f.targetColumn = "" → evaluateFilter (some f) fields = true)
    ∧ (f.targetColumn ≠ "" → f.operator.getD "equals" = "equals" →
        evaluateFilter (some f) fields =
          (jsTrim ((lookupField fields f.targetColumn).getD "") ==
            jsTrim (f.targetValue.getD "")))
    ∧ (f.targetColumn ≠ "" → f.operator.getD "equals" = "not_equals" →
        evaluateFilter (some f) fields =
          (jsTrim ((lookupField fields f.targetColumn).getD "") !=
            jsTrim (f.targetValue.getD "")))
    ∧ (f.targetColumn ≠ "" → f.operator.getD "equals" ≠ "equals" →
        f.operator.getD "equals" ≠ "not_equals" →
        evaluateFilter (some f) fields = true) := by
  refine ⟨rfl, ?_, ?_, ?_, ?_⟩
  · intro hcol
    simp [evaluateFilter, hcol]
  · intro hcol hop
    simp [evaluateFilter, hcol, hop]
  · intro hcol hop
    simp [evaluateFilter, hcol, hop]
  · intro hcol hop1 hop2
    simp [evaluateFilter, hcol, hop1, hop2]

/-- Witness for C8: the empty filter is a no-op on a nonempty field map,
and an unknown operator value (`contains`) evaluates to `true` instead of
blocking dispatch. -/
theorem evaluateFilter_spec_witness :
    evaluateFilter (some ⟨"", none, none⟩) [("a", "b")] = true
    ∧ evaluateFilter (some ⟨"状態", some "contains", some "完了"⟩) [("状態", "未完了")] = true := by
  constructor
  · exact (evaluateFilter_spec ⟨"", none, none⟩ [("a", "b")]).2.1 rfl
  · exact (evaluateFilter_spec ⟨"状態", some "contains", some "完了"⟩
      [("状態", "未完了")]).2.2.2.2 (by decide) (by decide) (by decide)

/-! ## Claim C9 -/

/-- Claim C9: the error reporter never raises (it is a total function of
its oracles, with every fetch or send throw consumed by a catch) and
returns whether the admin notification succeeded; admin credentials from
the tenant config take priority over the environment defaults; when
neither source is configured it only logs locally and returns false; and
when the admin send itself fails it returns false after that single send
attempt — no throw and no second report. -/
theorem errorReporter_spec (env : AdminEnv) (p : ErrorParams) :
    (∀ cfg, env.getCfg = Except.ok cfg → cfg.adminChatworkToken ≠ "" →
        cfg.adminChatworkRoomId ≠ "" →
        getAdminCredentials env = some (cfg.adminChatworkToken, cfg.adminChatworkRoomId))
    ∧ (∀ e, env.getCfg = Except.error e → env.envAdminToken ≠ "" → env.envAdminRoomId ≠ "" →
        getAdminCredentials env = some (env.envAdminToken, env.envAdminRoomId))
    ∧ (getAdminCredentials env = none →
        notifyError env p = (false, [AdminAction.logLocal]))
    ∧ (∀ token roomId e, getAdminCredentials env = some (token, roomId) →
        env.send token roomId
            (buildErrorMessage env.timestamp p (payloadSummary p.payload)) =
          Except.error e →
        notifyError env p = (false, [AdminAction.adminSend token roomId]))
    ∧ (∀ token roomId mid, getAdminCredentials env = some (token, roomId) →
        env.send token roomId
            (buildErrorMessage env.timestamp p (payloadSummary p.payload)) =
          Except.ok mid →
        notifyError env p = (true, [AdminAction.adminSend token roomId])) := by
  refine ⟨?_, ?_, ?_, ?_, ?_⟩
  · intro cfg hcfg ht hr
    simp [getAdminCredentials, hcfg, ht, hr]
  · intro e hcfg ht hr
    simp [getAdminCredentials, hcfg, ht, hr]
  · intro hcred
    simp [notifyError, hcred]
  · intro token roomId e hcred hsend
    simp [notifyError, hcred, hsend]
  · intro token roomId mid hcred hsend
    simp [notifyError, hcred, hsend]

/-- Witness for C9: a concrete environment whose config fetch throws,
whose environment variables are unset and whose send always fails —
`notifyError` logs locally and returns false. -/
theorem errorReporter_spec_witness :
    notifyError
        ⟨Except.error "fetch failed", fun _ _ _ => Except.error "down", "", "", "ts"⟩
        ⟨"Case", "Unknown Error", "boom", none, none⟩ =
      (false, [AdminAction.logLocal]) := by
  exact (errorReporter_spec
      ⟨Except.error "fetch failed", fun _ _ _ => Except.error "down", "", "", "ts"⟩
      ⟨"Case", "Unknown Error", "boom", none, none⟩).2.2.1 (by decide)

end NotifMgmt
